import Mathlib

/-!
# carbon-relay-ng: the per-destination connection (`conn.go`)

A shallow embedding of `Conn` and its two goroutines, `HandleData` (the data
worker) and `HandleStatus` (the status worker), together with callers that
use the public operations: a send on `In`, `isAlive`, `Flush` and `Close`.

Every goroutine is a program counter plus its local data.  All six channels of
`Conn` are unbuffered, so a send completes only in a hand-off with a different
goroutine that is at a receive on the same channel; `step` has one generic
hand-off rule for this.  What the environment decides (the result of
`bufio.Writer.Write`, of `bufio.Writer.Flush`, of `net.TCPConn.Close`, and when
the ticker fires) is the parameter of an action.  The calls made on the writer
and on the socket are recorded in the state, in order.
-/

namespace Relay

/-- A Go `[]byte`. -/
abbrev Bytes := List (Fin 256)

/-- The byte `'\n'` appended at conn.go:79. -/
def newline : Fin 256 := 10

/-- A non-nil Go `error` value; `Option GoError` is a Go `error`, `none` is `nil`. -/
structure GoError where
  msg : String
deriving DecidableEq, Repr

/-- Modelled from the spec: the `Destination` type is declared outside `conn.go`;
`HandleData` reads its `Addr` and calls `Add(1)` on three of its counters, which
are kept here as natural numbers. -/
structure Destination where
  Addr : String
  numOut : Nat
  numErrTruncated : Nat
  numErrWrite : Nat
deriving DecidableEq, Repr

/-- The value of `err` tested at conn.go:87 when it is non-nil: either the error
that `c.Write` returned, or the one synthesized at conn.go:85, whose text is
`"truncated write: " + string(buf)`. -/
inductive WriteFailure where
  | hard (e : GoError)
  | truncated (buf : Bytes)
deriving DecidableEq, Repr

/-- What conn.go:81-100 leave behind: the destination with its counters updated
and the final value of `err`. -/
structure WriteHandled where
  dest : Destination
  failure : Option WriteFailure
deriving DecidableEq, Repr

/-- The body of the `In` case after `c.Write(buf)` returned `(n, err)`
(conn.go:81-100), `buf` being the buffer that was passed to `Write`. -/
def handleWriteResult (dest : Destination) (buf : Bytes) (n : Int) (err : Option GoError) :
    WriteHandled :=
  -- conn.go:81
  let errBecauseTruncated := false
  let err0 : Option WriteFailure := err.map WriteFailure.hard
  -- conn.go:82-86
  let truncatedNow : Bool := err.isNone && ((buf.length : Int) != n)
  let errBecauseTruncated := if truncatedNow then true else errBecauseTruncated
  let dest1 := if truncatedNow then { dest with numErrTruncated := dest.numErrTruncated + 1 } else dest
  let err1 := if truncatedNow then some (WriteFailure.truncated buf) else err0
  -- conn.go:87-100
  match err1 with
  | some e =>
    let dest2 := if !errBecauseTruncated then { dest1 with numErrWrite := dest1.numErrWrite + 1 } else dest1
    { dest := dest2, failure := some e }
  | none => { dest := { dest1 with numOut := dest1.numOut + 1 }, failure := none }

/-- The goroutines of the system. -/
inductive Tid where
  | data
  | status
  | caller (i : Nat)
deriving DecidableEq, Repr

/-- The channels of `Conn` (conn.go:16-23), all made unbuffered in `NewConn`. -/
inductive Chan where
  | In
  | shutdown
  | checkUp
  | updateUp
  | flush
  | flushErr
deriving DecidableEq, Repr

/-- A value handed over a channel. -/
inductive Val where
  | bytes (b : Bytes)
  | bool (b : Bool)
  | error (e : Option GoError)
deriving DecidableEq, Repr

/-- Where `HandleData` stands.
* `select`: at the `select` of conn.go:76;
* `write buf`: about to call `c.Write(buf)` at conn.go:80, the newline already appended;
* `updating`: blocked in `c.updateUp <- false` (conn.go:93);
* `closeShutdown`: inside its own `c.Close()` (conn.go:95), blocked in `c.shutdown <- true` (conn.go:126);
* `closeConn`: inside its own `c.Close()`, about to call `c.conn.Close()` (conn.go:128);
* `tickFlush`: about to call `c.buffered.Flush()` at conn.go:102;
* `flush req`: about to call `c.buffered.Flush()` at conn.go:104, the request having come from `req`;
* `flushReply req e`: blocked in `c.flushErr <- e` (conn.go:104);
* `returned`: after a `return` (conn.go:97 or conn.go:106). -/
inductive DataPc where
  | select
  | write (buf : Bytes)
  | updating
  | closeShutdown
  | closeConn
  | tickFlush
  | flush (req : Tid)
  | flushReply (req : Tid) (e : Option GoError)
  | returned
deriving DecidableEq, Repr

/-- Where a caller stands.
* `idle`: between two operations;
* `submit buf`: blocked in `c.In <- buf`;
* `isAlive`: blocked in `<-c.checkUp` (conn.go:57);
* `flushSend`: in `Flush`, blocked in `c.flush <- true` (conn.go:117);
* `flushRecv`: in `Flush`, blocked in `<-c.flushErr` (conn.go:119);
* `closeShutdown`: in `Close`, blocked in `c.shutdown <- true` (conn.go:126);
* `closeConn`: in `Close`, about to call `c.conn.Close()` (conn.go:128). -/
inductive CallerPc where
  | idle
  | submit (buf : Bytes)
  | isAlive
  | flushSend
  | flushRecv
  | closeShutdown
  | closeConn
deriving DecidableEq, Repr

/-- What a finished operation gave back to its caller. -/
inductive Ret where
  | submitted
  | alive (b : Bool)
  | flushed (e : Option GoError)
  | closed (e : Option GoError)
deriving DecidableEq, Repr

/-- A caller: its program counter and the results of the operations it has
finished, oldest first. -/
structure Caller where
  pc : CallerPc
  rets : List Ret
deriving DecidableEq, Repr

/-- A call made on the buffered writer `c.buffered`, with its result.  A flush
carries the goroutine whose request it serves, `none` for the ticker's
flush of conn.go:102. -/
inductive WriterCall where
  | write (buf : Bytes) (n : Int) (err : Option GoError)
  | flush (req : Option Tid) (err : Option GoError)
deriving DecidableEq, Repr

/-- The whole system. -/
structure State where
  /-- The data worker. -/
  data : DataPc
  /-- The field `c.up`, owned by the status worker, which is always at its `select`. -/
  up : Bool
  callers : List Caller
  dest : Destination
  /-- The buffers received from `c.In`, in order. -/
  received : List Bytes
  /-- The calls made on `c.buffered`, in order. -/
  writer : List WriterCall
  /-- The errors logged at conn.go:91, in order. -/
  failures : List WriteFailure
  /-- The calls of `c.conn.Close()`, in order: who called and what it returned. -/
  sockCloses : List (Tid × Option GoError)
deriving DecidableEq, Repr

/-- The public operations. -/
inductive Op where
  | submit (buf : Bytes)
  | isAlive
  | flush
  | close
deriving DecidableEq, Repr

/-- The first blocking point of an operation. -/
def Op.entry : Op → CallerPc
  | Op.submit buf => CallerPc.submit buf
  | Op.isAlive => CallerPc.isAlive
  | Op.flush => CallerPc.flushSend
  | Op.close => CallerPc.closeShutdown

/-- The events of the system.
* `call i op`: the idle caller `i` starts `op`;
* `handoff snd rcv ch`: `snd` completes its send on `ch`, `rcv` its receive;
* `tick`: `tickerFlush.C` delivers to the data worker's `select`;
* `writeRet n err`: `c.Write(buf)` is called and returns `(n, err)`;
* `flushRet err`: `c.buffered.Flush()` is called and returns `err`;
* `connClose t err`: `t` calls `c.conn.Close()`, which returns `err`. -/
inductive Action where
  | call (i : Nat) (op : Op)
  | handoff (snd rcv : Tid) (ch : Chan)
  | tick
  | writeRet (n : Int) (err : Option GoError)
  | flushRet (err : Option GoError)
  | connClose (t : Tid) (err : Option GoError)
deriving DecidableEq, Repr

/-- The state `NewConn` returns (conn.go:37-53) for a system with `k` callers:
`up: true`, both workers started, nothing written yet. -/
def init (dest : Destination) (k : Nat) : State :=
  { data := DataPc.select
    up := true
    callers := List.replicate k { pc := CallerPc.idle, rets := [] }
    dest := dest
    received := []
    writer := []
    failures := []
    sockCloses := [] }

/-- Replace caller `i`. -/
def State.setCaller (s : State) (i : Nat) (c : Caller) : State :=
  { s with callers := s.callers.set i c }

/-- The send a goroutine is blocked in, if any.  The status worker's `select`
always offers `c.up` on `checkUp` (conn.go:65). -/
def offer (s : State) : Tid → Option (Chan × Val)
  | Tid.data =>
    match s.data with
    | DataPc.updating => some (Chan.updateUp, Val.bool false)
    | DataPc.closeShutdown => some (Chan.shutdown, Val.bool true)
    | DataPc.flushReply _ e => some (Chan.flushErr, Val.error e)
    | _ => none
  | Tid.status => some (Chan.checkUp, Val.bool s.up)
  | Tid.caller i =>
    match s.callers[i]? with
    | none => none
    | some c =>
      match c.pc with
      | CallerPc.submit buf => some (Chan.In, Val.bytes buf)
      | CallerPc.flushSend => some (Chan.flush, Val.bool true)
      | CallerPc.closeShutdown => some (Chan.shutdown, Val.bool true)
      | _ => none

/-- The sender goes on after its send has completed. -/
def sent (s : State) : Tid → State
  | Tid.data =>
    match s.data with
    | DataPc.updating => { s with data := DataPc.closeShutdown }
    | DataPc.closeShutdown => { s with data := DataPc.closeConn }
    | DataPc.flushReply _ _ => { s with data := DataPc.select }
    | _ => s
  | Tid.status => s
  | Tid.caller i =>
    match s.callers[i]? with
    | none => s
    | some c =>
      match c.pc with
      | CallerPc.submit _ => s.setCaller i { pc := CallerPc.idle, rets := c.rets ++ [Ret.submitted] }
      | CallerPc.flushSend => s.setCaller i { c with pc := CallerPc.flushRecv }
      | CallerPc.closeShutdown => s.setCaller i { c with pc := CallerPc.closeConn }
      | _ => s

/-- The data worker's `select` (conn.go:76-107) receives `v` on `ch` from `snd`. -/
def recvData (s : State) (snd : Tid) : Chan → Val → Option State
  | Chan.In, Val.bytes buf =>
    -- conn.go:77-79
    some { s with data := DataPc.write (buf ++ [newline]), received := s.received ++ [buf] }
  | Chan.flush, Val.bool _ => some { s with data := DataPc.flush snd }
  | Chan.shutdown, Val.bool _ => some { s with data := DataPc.returned }
  | _, _ => none

/-- The status worker's `select` (conn.go:62-67) receives `v` on `ch`. -/
def recvStatus (s : State) : Chan → Val → Option State
  | Chan.updateUp, Val.bool b => some { s with up := b }
  | _, _ => none

/-- Caller `i`, being `c`, receives `v` on `ch`. -/
def recvCaller (s : State) (i : Nat) (c : Caller) : Chan → Val → Option State
  | Chan.checkUp, Val.bool b =>
    match c.pc with
    | CallerPc.isAlive => some (s.setCaller i { pc := CallerPc.idle, rets := c.rets ++ [Ret.alive b] })
    | _ => none
  | Chan.flushErr, Val.error e =>
    match c.pc with
    | CallerPc.flushRecv => some (s.setCaller i { pc := CallerPc.idle, rets := c.rets ++ [Ret.flushed e] })
    | _ => none
  | _, _ => none

/-- Goroutine `rcv` receives `v` on `ch` from `snd`, if it is at a receive on `ch`. -/
def recv (s : State) (snd : Tid) (ch : Chan) (v : Val) : Tid → Option State
  | Tid.data =>
    match s.data with
    | DataPc.select => recvData s snd ch v
    | _ => none
  | Tid.status => recvStatus s ch v
  | Tid.caller i =>
    match s.callers[i]? with
    | none => none
    | some c => recvCaller s i c ch v

/-- An unbuffered channel: the send of `snd` and the receive of a different
goroutine `rcv` on the same channel complete together. -/
def handoff (s : State) (snd rcv : Tid) (ch : Chan) : Option State :=
  if snd = rcv then none
  else
    match offer s snd with
    | none => none
    | some (ch1, v) =>
      if ch1 = ch then (recv s snd ch v rcv).map (fun s1 => sent s1 snd) else none

/-- The data worker calls `c.Write(buf)` and gets `(n, err)` (conn.go:80-100). -/
def writeRet (s : State) (n : Int) (err : Option GoError) : Option State :=
  match s.data with
  | DataPc.write buf =>
    let h := handleWriteResult s.dest buf n err
    match h.failure with
    | some e =>
      some { s with
        data := DataPc.updating
        dest := h.dest
        writer := s.writer ++ [WriterCall.write buf n err]
        failures := s.failures ++ [e] }
    | none =>
      some { s with
        data := DataPc.select
        dest := h.dest
        writer := s.writer ++ [WriterCall.write buf n err] }
  | _ => none

/-- The data worker calls `c.buffered.Flush()` and gets `err`
(conn.go:102, where the result is dropped, or conn.go:104). -/
def flushRet (s : State) (err : Option GoError) : Option State :=
  match s.data with
  | DataPc.tickFlush =>
    some { s with data := DataPc.select, writer := s.writer ++ [WriterCall.flush none err] }
  | DataPc.flush req =>
    some { s with data := DataPc.flushReply req err, writer := s.writer ++ [WriterCall.flush (some req) err] }
  | _ => none

/-- Goroutine `t` calls `c.conn.Close()` inside `Close` and gets `err`
(conn.go:128-130); the data worker then returns at conn.go:97. -/
def connClose (s : State) (err : Option GoError) : Tid → Option State
  | Tid.data =>
    match s.data with
    | DataPc.closeConn =>
      some { s with data := DataPc.returned, sockCloses := s.sockCloses ++ [(Tid.data, err)] }
    | _ => none
  | Tid.status => none
  | Tid.caller i =>
    match s.callers[i]? with
    | none => none
    | some c =>
      match c.pc with
      | CallerPc.closeConn =>
        some { s with
          callers := s.callers.set i { pc := CallerPc.idle, rets := c.rets ++ [Ret.closed err] }
          sockCloses := s.sockCloses ++ [(Tid.caller i, err)] }
      | _ => none

/-- One event of the system; `none` when the event is not enabled. -/
def step (s : State) : Action → Option State
  | Action.call i op =>
    match s.callers[i]? with
    | none => none
    | some c =>
      match c.pc with
      | CallerPc.idle => some (s.setCaller i { c with pc := op.entry })
      | _ => none
  | Action.handoff snd rcv ch => handoff s snd rcv ch
  | Action.tick =>
    match s.data with
    | DataPc.select => some { s with data := DataPc.tickFlush }
    | _ => none
  | Action.writeRet n err => writeRet s n err
  | Action.flushRet err => flushRet s err
  | Action.connClose t err => connClose s err t

/-- A sequence of events. -/
def run (s : State) : List Action → Option State
  | [] => some s
  | a :: rest => (step s a).bind (fun s1 => run s1 rest)

/-- The states `s` can get to. -/
def Steps (s t : State) : Prop := ∃ acts, run s acts = some t

/-- The states of the system of `k` callers started by `NewConn`. -/
def Reachable (dest : Destination) (k : Nat) (s : State) : Prop := Steps (init dest k) s

/-- The buffers passed to `c.Write`, in order of the calls. -/
def writtenBufs : List WriterCall → List Bytes
  | [] => []
  | WriterCall.write buf _ _ :: rest => buf :: writtenBufs rest
  | WriterCall.flush _ _ :: rest => writtenBufs rest

/-- The write returned the full length and no error. -/
def WriterCall.fullWrite : WriterCall → Bool
  | WriterCall.write buf n err => err.isNone && ((buf.length : Int) == n)
  | WriterCall.flush _ _ => true

/-- The write failed: a non-nil error, or a count other than the length. -/
def WriterCall.failedWrite : WriterCall → Bool
  | WriterCall.write buf n err => err.isSome || ((buf.length : Int) != n)
  | WriterCall.flush _ _ => false

/-- The buffer the data worker holds and has not yet passed to `c.Write`. -/
def pendingWrite : DataPc → List Bytes
  | DataPc.write buf => [buf]
  | _ => []

/-- The line `"foo.bar 1 1000000000\n"`, byte by byte. -/
def fooLine : Bytes :=
  [102, 111, 111, 46, 98, 97, 114, 32, 49, 32, 49, 48, 48, 48, 48, 48, 48, 48, 48, 48, 10]

/-- A destination whose counters are all zero. -/
def dest0 : Destination := { Addr := "localhost:2003", numOut := 0, numErrTruncated := 0, numErrWrite := 0 }

/-- All bytes passed to `c.Write`, in order of the calls. -/
def bytesWritten (log : List WriterCall) : Bytes := (writtenBufs log).flatten

/-- The `io.Writer` contract for one call of `Write(p)`: the count satisfies
`0 <= n <= len(p)`, and a count short of `len(p)` comes with a non-nil error. -/
def WriterCall.obeysWriter : WriterCall → Bool
  | WriterCall.write buf n err =>
    decide (0 ≤ n) && decide (n ≤ (buf.length : Int)) &&
      (!decide (n < (buf.length : Int)) || err.isSome)
  | WriterCall.flush _ _ => true

/-- The results of the writer flushes performed for the requests of `t`, in order. -/
def flushesFor (t : Tid) : List WriterCall → List (Option GoError)
  | [] => []
  | WriterCall.write _ _ _ :: rest => flushesFor t rest
  | WriterCall.flush req err :: rest =>
    if req = some t then err :: flushesFor t rest else flushesFor t rest

/-- The values `Flush` has returned to a caller, in order. -/
def flushRets : List Ret → List (Option GoError)
  | [] => []
  | Ret.flushed e :: rest => e :: flushRets rest
  | _ :: rest => flushRets rest

/-- The goroutine whose flush request the data worker is serving. -/
def requester : DataPc → Option Tid
  | DataPc.flush req => some req
  | DataPc.flushReply req _ => some req
  | _ => none

/-- The flush result the data worker has obtained for `t` and not yet handed over. -/
def inFlight (t : Tid) : DataPc → List (Option GoError)
  | DataPc.flushReply req e => if req = t then [e] else []
  | _ => []

/-- The transitions of `step` listed one by one, as the case analysis used in the proofs. -/
inductive Trans : State → State → Prop
  | call (s : State) (i : Nat) (c : Caller) (op : Op) :
      s.callers[i]? = some c → c.pc = CallerPc.idle →
      Trans s (s.setCaller i { c with pc := op.entry })
  | submit (s : State) (i : Nat) (c : Caller) (buf : Bytes) :
      s.data = DataPc.select → s.callers[i]? = some c → c.pc = CallerPc.submit buf →
      Trans s { s with
        data := DataPc.write (buf ++ [newline])
        received := s.received ++ [buf]
        callers := s.callers.set i { pc := CallerPc.idle, rets := c.rets ++ [Ret.submitted] } }
  | flushReq (s : State) (i : Nat) (c : Caller) :
      s.data = DataPc.select → s.callers[i]? = some c → c.pc = CallerPc.flushSend →
      Trans s { s with
        data := DataPc.flush (Tid.caller i)
        callers := s.callers.set i { c with pc := CallerPc.flushRecv } }
  | shutdown (s : State) (i : Nat) (c : Caller) :
      s.data = DataPc.select → s.callers[i]? = some c → c.pc = CallerPc.closeShutdown →
      Trans s { s with
        data := DataPc.returned
        callers := s.callers.set i { c with pc := CallerPc.closeConn } }
  | down (s : State) :
      s.data = DataPc.updating →
      Trans s { s with data := DataPc.closeShutdown, up := false }
  | flushReply (s : State) (req : Tid) (e : Option GoError) (i : Nat) (c : Caller) :
      s.data = DataPc.flushReply req e → s.callers[i]? = some c → c.pc = CallerPc.flushRecv →
      Trans s { s with
        data := DataPc.select
        callers := s.callers.set i { pc := CallerPc.idle, rets := c.rets ++ [Ret.flushed e] } }
  | alive (s : State) (i : Nat) (c : Caller) :
      s.callers[i]? = some c → c.pc = CallerPc.isAlive →
      Trans s { s with
        callers := s.callers.set i { pc := CallerPc.idle, rets := c.rets ++ [Ret.alive s.up] } }
  | tick (s : State) :
      s.data = DataPc.select → Trans s { s with data := DataPc.tickFlush }
  | writeFail (s : State) (buf : Bytes) (n : Int) (err : Option GoError) (e : WriteFailure) :
      s.data = DataPc.write buf → (handleWriteResult s.dest buf n err).failure = some e →
      Trans s { s with
        data := DataPc.updating
        dest := (handleWriteResult s.dest buf n err).dest
        writer := s.writer ++ [WriterCall.write buf n err]
        failures := s.failures ++ [e] }
  | writeOk (s : State) (buf : Bytes) (n : Int) (err : Option GoError) :
      s.data = DataPc.write buf → (handleWriteResult s.dest buf n err).failure = none →
      Trans s { s with
        data := DataPc.select
        dest := (handleWriteResult s.dest buf n err).dest
        writer := s.writer ++ [WriterCall.write buf n err] }
  | tickFlush (s : State) (err : Option GoError) :
      s.data = DataPc.tickFlush →
      Trans s { s with data := DataPc.select, writer := s.writer ++ [WriterCall.flush none err] }
  | flush (s : State) (req : Tid) (err : Option GoError) :
      s.data = DataPc.flush req →
      Trans s { s with
        data := DataPc.flushReply req err
        writer := s.writer ++ [WriterCall.flush (some req) err] }
  | closeData (s : State) (err : Option GoError) :
      s.data = DataPc.closeConn →
      Trans s { s with data := DataPc.returned, sockCloses := s.sockCloses ++ [(Tid.data, err)] }
  | closeCaller (s : State) (i : Nat) (c : Caller) (err : Option GoError) :
      s.callers[i]? = some c → c.pc = CallerPc.closeConn →
      Trans s { s with
        callers := s.callers.set i { pc := CallerPc.idle, rets := c.rets ++ [Ret.closed err] }
        sockCloses := s.sockCloses ++ [(Tid.caller i, err)] }

/-- The caller is past the `shutdown` send of `Close` and has not yet closed the socket. -/
def isCloser (c : Caller) : Bool := decide (c.pc = CallerPc.closeConn)

/-- The number of callers standing at `c.conn.Close()`. -/
def closers (l : List Caller) : Nat := l.countP isCloser

/-- The socket bookkeeping that holds in every reachable state. -/
structure CloseInv (s : State) : Prop where
  dataNotClosing : s.data ≠ DataPc.closeConn
  running : s.data ≠ DataPc.returned → s.sockCloses = [] ∧ closers s.callers = 0
  atMostOnce : s.sockCloses.length + closers s.callers ≤ 1

/-- Flush requests and flush results are paired one to one. -/
def FlushInv (s : State) : Prop :=
  ∀ (i : Nat) (c : Caller), s.callers[i]? = some c →
    (c.pc = CallerPc.flushRecv ↔ requester s.data = some (Tid.caller i)) ∧
    flushesFor (Tid.caller i) s.writer = flushRets c.rets ++ inFlight (Tid.caller i) s.data

/-- Some write in the log failed. -/
def hasFailed (log : List WriterCall) : Bool := log.any WriterCall.failedWrite

/-- After a failed write the data worker is past conn.go:87 and before its `return`. -/
def FailInv (s : State) : Prop :=
  hasFailed s.writer = true → (s.data = DataPc.updating ∨ s.data = DataPc.closeShutdown)

/-- The data worker is blocked after a failed write and nothing it owns has moved since `s`. -/
def Stuck (s t : State) : Prop :=
  (t.data = DataPc.updating ∨ t.data = DataPc.closeShutdown) ∧
    t.writer = s.writer ∧ t.received = s.received ∧ t.sockCloses = s.sockCloses ∧
    t.dest = s.dest ∧ t.failures = s.failures

/-- The data worker has returned and nothing it owns has moved since `s`. -/
def Gone (s t : State) : Prop :=
  t.data = DataPc.returned ∧ t.writer = s.writer ∧ t.received = s.received ∧
    t.dest = s.dest ∧ t.failures = s.failures

/-- Under the writer contract no write is counted as truncated and every failed
write is counted in `numErrWrite`. -/
def ContractInv (d0 : Destination) (s : State) : Prop :=
  s.writer.all WriterCall.obeysWriter = true →
    s.dest.numErrTruncated = d0.numErrTruncated ∧
    (∀ f ∈ s.failures, ∀ b : Bytes, f ≠ WriteFailure.truncated b) ∧
    s.dest.numErrWrite = d0.numErrWrite + s.writer.countP WriterCall.failedWrite

/-- The error of a write on a connection the peer has closed. -/
def errPipe : GoError := { msg := "write: broken pipe" }

/-- Caller 0 submits the line `x` and `c.Write` fails. -/
def failingRun : List Action :=
  [ Action.call 0 (Op.submit [120]),
    Action.handoff (Tid.caller 0) Tid.data Chan.In,
    Action.writeRet 0 (some errPipe),
    Action.handoff Tid.data Tid.status Chan.updateUp ]

/-- The state right after the failed write of `failingRun`. -/
def failedState : State :=
  { data := DataPc.updating
    up := true
    callers := [{ pc := CallerPc.idle, rets := [Ret.submitted] }]
    dest := { dest0 with numErrWrite := 1 }
    received := [[120]]
    writer := [WriterCall.write [120, 10] 0 (some errPipe)]
    failures := [WriteFailure.hard errPipe]
    sockCloses := [] }

/-- The state at the end of `failingRun`. -/
def downState : State := { failedState with data := DataPc.closeShutdown, up := false }

/-- One caller has submitted `fooLine` and the write returned the full length. -/
def okState : State :=
  { data := DataPc.select
    up := true
    callers := [{ pc := CallerPc.idle, rets := [Ret.submitted] }]
    dest := { dest0 with numOut := 1 }
    received := [fooLine]
    writer := [WriterCall.write (fooLine ++ [newline]) 22 none]
    failures := []
    sockCloses := [] }

/-- The run that leads to `okState`. -/
def okRun : List Action :=
  [ Action.call 0 (Op.submit fooLine),
    Action.handoff (Tid.caller 0) Tid.data Chan.In,
    Action.writeRet 22 none ]

/-- The data worker holds `fooLine` with its newline and is about to call `c.Write`. -/
def heldState : State :=
  { okState with data := DataPc.write (fooLine ++ [newline]), dest := dest0, writer := [] }

/-- The only caller is blocked in `c.In <- fooLine`. -/
def submittingState : State :=
  { init dest0 1 with callers := [{ pc := CallerPc.submit fooLine, rets := [] }] }

/-- The only caller is in `Close`, blocked in `c.shutdown <- true`. -/
def closingState : State :=
  { init dest0 1 with callers := [{ pc := CallerPc.closeShutdown, rets := [] }] }

/-- Two callers are in `Flush` at the same time, both blocked in `c.flush <- true`. -/
def racingState : State :=
  { init dest0 2 with
    callers := [{ pc := CallerPc.flushSend, rets := [] }, { pc := CallerPc.flushSend, rets := [] }] }

/-- Two concurrent calls of `Flush`: after two events the system is in
`racingState`; the data worker then serves caller 1, whose writer flush returns
`errPipe`, and after that caller 0, whose writer flush returns `nil`. -/
def raceRun : List Action :=
  [ Action.call 0 Op.flush,
    Action.call 1 Op.flush,
    Action.handoff (Tid.caller 1) Tid.data Chan.flush,
    Action.flushRet (some errPipe),
    Action.handoff Tid.data (Tid.caller 1) Chan.flushErr,
    Action.handoff (Tid.caller 0) Tid.data Chan.flush,
    Action.flushRet none,
    Action.handoff Tid.data (Tid.caller 0) Chan.flushErr ]

/-- The state at the end of `raceRun`: each caller got the result of the writer
flush performed for its own request. -/
def racedState : State :=
  { init dest0 2 with
    callers := [{ pc := CallerPc.idle, rets := [Ret.flushed none] },
                { pc := CallerPc.idle, rets := [Ret.flushed (some errPipe)] }]
    writer := [WriterCall.flush (some (Tid.caller 1)) (some errPipe),
               WriterCall.flush (some (Tid.caller 0)) none] }

/-- After `failingRun` the caller asks `isAlive`. -/
def queryState : State :=
  { downState with callers := [{ pc := CallerPc.isAlive, rets := [Ret.submitted] }] }

/-- The query of `queryState` has been answered. -/
def answeredState : State :=
  { downState with callers := [{ pc := CallerPc.idle, rets := [Ret.submitted, Ret.alive false] }] }

/-- The data worker stands in the failure path only after a failed write. -/
def BlockedInv (s : State) : Prop :=
  (s.data = DataPc.updating ∨ s.data = DataPc.closeShutdown) → hasFailed s.writer = true

/-! ## Lemmas and theorems -/

theorem trans_of_handoff {s t : State} {snd rcv : Tid} {ch : Chan}
    (h : handoff s snd rcv ch = some t) : Trans s t := by
  unfold handoff at h
  split at h
  · simp at h
  · rename_i hne
    cases snd with
    | data =>
      cases rcv with
      | data => exact absurd rfl hne
      | status =>
        cases hd : s.data <;> simp [offer, hd] at h
        · obtain ⟨rfl, h⟩ := h
          simp [recv, recvStatus] at h
          subst h
          simp [sent, hd]
          exact Trans.down s hd
        · obtain ⟨rfl, h⟩ := h
          simp [recv, recvStatus] at h
        · obtain ⟨rfl, h⟩ := h
          simp [recv, recvStatus] at h
      | caller i =>
        cases hd : s.data <;> simp [offer, hd] at h
        · obtain ⟨rfl, h⟩ := h
          cases hc : s.callers[i]? <;> simp [recv, recvCaller, hc] at h
        · obtain ⟨rfl, h⟩ := h
          cases hc : s.callers[i]? <;> simp [recv, recvCaller, hc] at h
        · rename_i req e
          obtain ⟨rfl, h⟩ := h
          cases hc : s.callers[i]? with
          | none => simp [recv, hc] at h
          | some c =>
            simp [recv, recvCaller, hc] at h
            cases hp : c.pc <;> simp [hp] at h
            subst h
            simp [sent, State.setCaller, hd]
            exact Trans.flushReply s req e i c hd hc hp
    | status =>
      simp [offer] at h
      obtain ⟨rfl, h⟩ := h
      cases rcv with
      | data => cases hd : s.data <;> simp [recv, recvData, hd] at h
      | status => exact absurd rfl hne
      | caller i =>
        cases hc : s.callers[i]? with
        | none => simp [recv, hc] at h
        | some c =>
          simp [recv, recvCaller, hc] at h
          cases hp : c.pc <;> simp [hp] at h
          subst h
          simp [sent, State.setCaller]
          exact Trans.alive s i c hc hp
    | caller i =>
      cases hc : s.callers[i]? with
      | none => simp [offer, hc] at h
      | some c =>
        cases hp : c.pc <;> simp [offer, hc, hp] at h
        · rename_i buf
          obtain ⟨rfl, h⟩ := h
          cases rcv with
          | data =>
            cases hd : s.data <;> simp [recv, recvData, hd] at h
            subst h
            simp [sent, hc, hp, State.setCaller]
            exact Trans.submit s i c buf hd hc hp
          | status => simp [recv, recvStatus] at h
          | caller j => cases hj : s.callers[j]? <;> simp [recv, recvCaller, hj] at h
        · obtain ⟨rfl, h⟩ := h
          cases rcv with
          | data =>
            cases hd : s.data <;> simp [recv, recvData, hd] at h
            subst h
            simp [sent, hc, hp, State.setCaller]
            exact Trans.flushReq s i c hd hc hp
          | status => simp [recv, recvStatus] at h
          | caller j => cases hj : s.callers[j]? <;> simp [recv, recvCaller, hj] at h
        · obtain ⟨rfl, h⟩ := h
          cases rcv with
          | data =>
            cases hd : s.data <;> simp [recv, recvData, hd] at h
            subst h
            simp [sent, hc, hp, State.setCaller]
            exact Trans.shutdown s i c hd hc hp
          | status => simp [recv, recvStatus] at h
          | caller j => cases hj : s.callers[j]? <;> simp [recv, recvCaller, hj] at h

theorem trans_of_step {s t : State} {a : Action} (h : step s a = some t) : Trans s t := by
  cases a with
  | call i op =>
    cases hc : s.callers[i]? with
    | none => simp [step, hc] at h
    | some c =>
      cases hp : c.pc <;> simp [step, hc, hp] at h
      subst h
      exact Trans.call s i c op hc hp
  | handoff snd rcv ch => exact trans_of_handoff h
  | tick =>
    cases hd : s.data <;> simp [step, hd] at h
    subst h
    exact Trans.tick s hd
  | writeRet n err =>
    cases hd : s.data <;> simp [step, writeRet, hd] at h
    rename_i buf
    cases hf : (handleWriteResult s.dest buf n err).failure with
    | none =>
      simp [hf] at h
      subst h
      exact Trans.writeOk s buf n err hd hf
    | some e =>
      simp [hf] at h
      subst h
      exact Trans.writeFail s buf n err e hd hf
  | flushRet err =>
    cases hd : s.data <;> simp [step, flushRet, hd] at h
    · subst h
      exact Trans.tickFlush s err hd
    · subst h
      exact Trans.flush s _ err hd
  | connClose t0 err =>
    cases t0 with
    | data =>
      cases hd : s.data <;> simp [step, connClose, hd] at h
      subst h
      exact Trans.closeData s err hd
    | status => simp [step, connClose] at h
    | caller i =>
      cases hc : s.callers[i]? with
      | none => simp [step, connClose, hc] at h
      | some c =>
        cases hp : c.pc <;> simp [step, connClose, hc, hp] at h
        subst h
        exact Trans.closeCaller s i c err hc hp

/-- An invariant of `Trans` holds along every run. -/
theorem run_induct {P : State → Prop} (hstep : ∀ s t, P s → Trans s t → P t) :
    ∀ (acts : List Action) (s t : State), P s → run s acts = some t → P t := by
  intro acts
  induction acts with
  | nil =>
    intro s t hs h
    simp [run] at h
    exact h ▸ hs
  | cons a rest ih =>
    intro s t hs h
    cases ha : step s a with
    | none => simp [run, ha] at h
    | some s1 =>
      simp [run, ha] at h
      exact ih s1 t (hstep s s1 hs (trans_of_step ha)) h

theorem steps_induct {P : State → Prop} (hstep : ∀ s t, P s → Trans s t → P t)
    {s t : State} (hs : P s) (h : Steps s t) : P t := by
  obtain ⟨acts, h⟩ := h
  exact run_induct hstep acts s t hs h

theorem steps_refl (s : State) : Steps s s := ⟨[], rfl⟩

theorem run_append (s : State) (as bs : List Action) :
    run s (as ++ bs) = (run s as).bind (fun s1 => run s1 bs) := by
  induction as generalizing s with
  | nil => simp [run]
  | cons a rest ih =>
    cases ha : step s a with
    | none => simp [run, ha]
    | some s1 => simp [run, ha, ih]

theorem steps_trans {s t u : State} (h1 : Steps s t) (h2 : Steps t u) : Steps s u := by
  obtain ⟨as, h1⟩ := h1
  obtain ⟨bs, h2⟩ := h2
  exact ⟨as ++ bs, by simp [run_append, h1, h2]⟩

theorem writtenBufs_append (l1 l2 : List WriterCall) :
    writtenBufs (l1 ++ l2) = writtenBufs l1 ++ writtenBufs l2 := by
  induction l1 with
  | nil => simp [writtenBufs]
  | cons c rest ih => cases c <;> simp [writtenBufs, ih]

theorem written_inv {s t : State}
    (hs : writtenBufs s.writer ++ pendingWrite s.data = s.received.map (fun b => b ++ [newline]))
    (h : Trans s t) :
    writtenBufs t.writer ++ pendingWrite t.data = t.received.map (fun b => b ++ [newline]) := by
  cases h <;> simp_all [pendingWrite, writtenBufs_append, writtenBufs, State.setCaller]

theorem written_reachable {dest : Destination} {k : Nat} {s : State} (h : Reachable dest k s) :
    writtenBufs s.writer ++ pendingWrite s.data = s.received.map (fun b => b ++ [newline]) :=
  steps_induct (P := fun s => writtenBufs s.writer ++ pendingWrite s.data = s.received.map (fun b => b ++ [newline]))
    (fun _ _ hs ht => written_inv hs ht) (by simp [init, writtenBufs, pendingWrite]) h

theorem set_lookup {l : List Caller} {j i : Nat} {a c : Caller} (h : (l.set j a)[i]? = some c) :
    (i = j ∧ c = a) ∨ (i ≠ j ∧ l[i]? = some c) := by
  rw [List.getElem?_set] at h
  by_cases hij : j = i
  · subst hij
    simp at h
    exact Or.inl ⟨rfl, h.2.symm⟩
  · simp [hij] at h
    exact Or.inr ⟨fun e => hij e.symm, h⟩

theorem handle_failure_none (d : Destination) (buf : Bytes) (n : Int) (err : Option GoError) :
    (handleWriteResult d buf n err).failure = none ↔ (err = none ∧ (buf.length : Int) = n) := by
  cases err <;> by_cases hn : (buf.length : Int) = n <;> simp [handleWriteResult, hn]

theorem countP_set (p : Caller → Bool) {l : List Caller} {i : Nat} {c : Caller} (a : Caller)
    (h : l[i]? = some c) :
    (l.set i a).countP p + (if p c then 1 else 0) = l.countP p + (if p a then 1 else 0) := by
  induction l generalizing i with
  | nil => simp at h
  | cons x rest ih =>
    cases i with
    | zero =>
      simp at h
      subst h
      simp [List.countP_cons]
      omega
    | succ m =>
      simp at h
      have := ih h
      simp [List.countP_cons]
      omega

theorem closers_same {l : List Caller} {i : Nat} {c : Caller} (a : Caller) (h : l[i]? = some c)
    (hc : c.pc ≠ CallerPc.closeConn) (ha : a.pc ≠ CallerPc.closeConn) :
    closers (l.set i a) = closers l := by
  have := countP_set isCloser a h
  simp [isCloser, hc, ha] at this
  simpa [closers, isCloser] using this

theorem closers_enter {l : List Caller} {i : Nat} {c : Caller} (a : Caller) (h : l[i]? = some c)
    (hc : c.pc ≠ CallerPc.closeConn) (ha : a.pc = CallerPc.closeConn) :
    closers (l.set i a) = closers l + 1 := by
  have := countP_set isCloser a h
  simp [isCloser, hc, ha] at this
  simpa [closers, isCloser] using this

theorem closers_leave {l : List Caller} {i : Nat} {c : Caller} (a : Caller) (h : l[i]? = some c)
    (hc : c.pc = CallerPc.closeConn) (ha : a.pc ≠ CallerPc.closeConn) :
    closers (l.set i a) + 1 = closers l := by
  have := countP_set isCloser a h
  simp [isCloser, hc, ha] at this
  simpa [closers, isCloser] using this

theorem closeInv_step {s t : State} (hs : CloseInv s) (h : Trans s t) : CloseInv t := by
  obtain ⟨h1, h2, h3⟩ := hs
  cases h with
  | call i c op hc hp =>
    have e := closers_same { c with pc := op.entry } hc (by simp [hp]) (by cases op <;> simp [Op.entry])
    exact ⟨h1, by simpa [State.setCaller, e] using h2, by simpa [State.setCaller, e] using h3⟩
  | submit i c buf hd hc hp =>
    have e := closers_same { pc := CallerPc.idle, rets := c.rets ++ [Ret.submitted] } hc (by simp [hp]) (by simp)
    have h2 := h2 (by simp [hd])
    exact ⟨by simp, by simp [e, h2], by simp [e, h2]⟩
  | flushReq i c hd hc hp =>
    have e := closers_same { c with pc := CallerPc.flushRecv } hc (by simp [hp]) (by simp)
    have h2 := h2 (by simp [hd])
    exact ⟨by simp, by simp [e, h2], by simp [e, h2]⟩
  | shutdown i c hd hc hp =>
    have e := closers_enter { c with pc := CallerPc.closeConn } hc (by simp [hp]) (by simp)
    have h2 := h2 (by simp [hd])
    exact ⟨by simp, by simp, by simp [e, h2]⟩
  | down hd =>
    have h2 := h2 (by simp [hd])
    exact ⟨by simp, by simp [h2], by simp [h2]⟩
  | flushReply req e0 i c hd hc hp =>
    have e := closers_same { pc := CallerPc.idle, rets := c.rets ++ [Ret.flushed e0] } hc (by simp [hp]) (by simp)
    have h2 := h2 (by simp [hd])
    exact ⟨by simp, by simp [e, h2], by simp [e, h2]⟩
  | alive i c hc hp =>
    have e := closers_same { pc := CallerPc.idle, rets := c.rets ++ [Ret.alive s.up] } hc (by simp [hp]) (by simp)
    exact ⟨h1, by simpa [e] using h2, by simpa [e] using h3⟩
  | tick hd =>
    have h2 := h2 (by simp [hd])
    exact ⟨by simp, by simp [h2], by simp [h2]⟩
  | writeFail buf n err e0 hd hf =>
    have h2 := h2 (by simp [hd])
    exact ⟨by simp, by simp [h2], by simp [h2]⟩
  | writeOk buf n err hd hf =>
    have h2 := h2 (by simp [hd])
    exact ⟨by simp, by simp [h2], by simp [h2]⟩
  | tickFlush err hd =>
    have h2 := h2 (by simp [hd])
    exact ⟨by simp, by simp [h2], by simp [h2]⟩
  | flush req err hd =>
    have h2 := h2 (by simp [hd])
    exact ⟨by simp, by simp [h2], by simp [h2]⟩
  | closeData err hd => exact absurd hd h1
  | closeCaller i c err hc hp =>
    have e := closers_leave { pc := CallerPc.idle, rets := c.rets ++ [Ret.closed err] } hc hp (by simp)
    have hret : s.data = DataPc.returned := by
      by_contra hne
      have := (h2 hne).2
      omega
    refine ⟨h1, by simp [hret], ?_⟩
    simp
    omega

theorem closers_init (dest : Destination) (k : Nat) : closers (init dest k).callers = 0 := by
  induction k with
  | zero => simp [init, closers]
  | succ m ih =>
    simp only [init, closers, List.replicate_succ, List.countP_cons] at ih ⊢
    simp [ih, isCloser]

theorem closeInv_init (dest : Destination) (k : Nat) : CloseInv (init dest k) := by
  have h := closers_init dest k
  exact ⟨by simp [init], fun _ => ⟨by simp [init], h⟩, by rw [h]; simp [init]⟩

theorem closeInv_reachable {dest : Destination} {k : Nat} {s : State} (h : Reachable dest k s) :
    CloseInv s :=
  steps_induct (P := CloseInv) (fun _ _ hs ht => closeInv_step hs ht) (closeInv_init dest k) h

theorem flushesFor_append (t : Tid) (l1 l2 : List WriterCall) :
    flushesFor t (l1 ++ l2) = flushesFor t l1 ++ flushesFor t l2 := by
  induction l1 with
  | nil => simp [flushesFor]
  | cons c rest ih =>
    cases c with
    | write buf n err => simp [flushesFor, ih]
    | flush req err => by_cases h : req = some t <;> simp [flushesFor, ih, h]

theorem flushRets_append (l1 l2 : List Ret) :
    flushRets (l1 ++ l2) = flushRets l1 ++ flushRets l2 := by
  induction l1 with
  | nil => simp [flushRets]
  | cons c rest ih => cases c <;> simp [flushRets, ih]

theorem flushInv_step {s t : State} (hs : FlushInv s) (h : Trans s t) : FlushInv t := by
  cases h with
  | call i c op hc hp =>
    intro j cj hj
    have hi := hs i c hc
    rcases set_lookup hj with ⟨rfl, rfl⟩ | ⟨hne, hj1⟩
    · cases op <;> simp_all [Op.entry, State.setCaller]
    · exact hs j cj hj1
  | submit i c buf hd hc hp =>
    intro j cj hj
    have hi := hs i c hc
    rcases set_lookup hj with ⟨rfl, rfl⟩ | ⟨hne, hj1⟩
    · simp_all [requester, inFlight, flushRets_append, flushRets]
    · have := hs j cj hj1
      simp_all [requester, inFlight]
  | flushReq i c hd hc hp =>
    intro j cj hj
    have hi := hs i c hc
    rcases set_lookup hj with ⟨rfl, rfl⟩ | ⟨hne, hj1⟩
    · simp_all [requester, inFlight]
    · have := hs j cj hj1
      simp_all [requester, inFlight]
      exact fun e => hne e.symm
  | shutdown i c hd hc hp =>
    intro j cj hj
    have hi := hs i c hc
    rcases set_lookup hj with ⟨rfl, rfl⟩ | ⟨hne, hj1⟩
    · simp_all [requester, inFlight]
    · have := hs j cj hj1
      simp_all [requester, inFlight]
  | down hd =>
    intro j cj hj
    have := hs j cj hj
    simp_all [requester, inFlight]
  | flushReply req e0 i c hd hc hp =>
    intro j cj hj
    have hi := hs i c hc
    rcases set_lookup hj with ⟨rfl, rfl⟩ | ⟨hne, hj1⟩
    · simp_all [requester, inFlight, flushRets_append, flushRets]
    · have := hs j cj hj1
      have hji : ¬ i = j := fun e => hne e.symm
      simp_all [requester, inFlight]
  | alive i c hc hp =>
    intro j cj hj
    have hi := hs i c hc
    rcases set_lookup hj with ⟨rfl, rfl⟩ | ⟨hne, hj1⟩
    · simp_all [requester, inFlight, flushRets_append, flushRets]
    · exact hs j cj hj1
  | tick hd =>
    intro j cj hj
    have := hs j cj hj
    simp_all [requester, inFlight]
  | writeFail buf n err e0 hd hf =>
    intro j cj hj
    have := hs j cj hj
    simp_all [requester, inFlight, flushesFor_append, flushesFor]
  | writeOk buf n err hd hf =>
    intro j cj hj
    have := hs j cj hj
    simp_all [requester, inFlight, flushesFor_append, flushesFor]
  | tickFlush err hd =>
    intro j cj hj
    have := hs j cj hj
    simp_all [requester, inFlight, flushesFor_append, flushesFor]
  | flush req err hd =>
    intro j cj hj
    have := hs j cj hj
    by_cases hr : req = Tid.caller j <;> simp_all [requester, inFlight, flushesFor_append, flushesFor]
  | closeData err hd =>
    intro j cj hj
    have := hs j cj hj
    simp_all [requester, inFlight]
  | closeCaller i c err hc hp =>
    intro j cj hj
    have hi := hs i c hc
    rcases set_lookup hj with ⟨rfl, rfl⟩ | ⟨hne, hj1⟩
    · simp_all [requester, inFlight, flushRets_append, flushRets]
    · exact hs j cj hj1

theorem flushInv_init (dest : Destination) (k : Nat) : FlushInv (init dest k) := by
  intro i c hc
  have hc1 : c = { pc := CallerPc.idle, rets := [] } := by
    simp [init, List.getElem?_replicate] at hc
    exact hc.2.symm
  subst hc1
  simp [init, requester, inFlight, flushesFor, flushRets]

theorem flushInv_reachable {dest : Destination} {k : Nat} {s : State} (h : Reachable dest k s) :
    FlushInv s :=
  steps_induct (P := FlushInv) (fun _ _ hs ht => flushInv_step hs ht) (flushInv_init dest k) h

theorem failed_of_failure {d : Destination} {buf : Bytes} {n : Int} {err : Option GoError}
    {e : WriteFailure} (h : (handleWriteResult d buf n err).failure = some e) :
    (WriterCall.write buf n err).failedWrite = true := by
  have := handle_failure_none d buf n err
  cases err with
  | some e1 => simp [WriterCall.failedWrite]
  | none =>
    by_cases hn : (buf.length : Int) = n
    · rw [this.mpr ⟨rfl, hn⟩] at h
      simp at h
    · simp [WriterCall.failedWrite, hn]

theorem not_failed_of_ok {d : Destination} {buf : Bytes} {n : Int} {err : Option GoError}
    (h : (handleWriteResult d buf n err).failure = none) :
    (WriterCall.write buf n err).failedWrite = false := by
  obtain ⟨rfl, hn⟩ := (handle_failure_none d buf n err).mp h
  simp [WriterCall.failedWrite, hn]

theorem hasFailed_append (l : List WriterCall) (c : WriterCall) :
    hasFailed (l ++ [c]) = (hasFailed l || c.failedWrite) := by
  simp [hasFailed]

theorem not_failed_of_running {s : State} (hs : FailInv s)
    (h1 : s.data ≠ DataPc.updating) (h2 : s.data ≠ DataPc.closeShutdown) :
    hasFailed s.writer = false := by
  cases hh : hasFailed s.writer with
  | false => rfl
  | true => rcases hs hh with h | h <;> contradiction

theorem failInv_step {s t : State} (hs : FailInv s) (h : Trans s t) : FailInv t := by
  intro hf
  cases h with
  | call i c op hc hp => exact hs hf
  | submit i c buf hd hc hp =>
    have hnf := not_failed_of_running hs (by simp [hd]) (by simp [hd])
    simp [hnf] at hf
  | flushReq i c hd hc hp =>
    have hnf := not_failed_of_running hs (by simp [hd]) (by simp [hd])
    simp [hnf] at hf
  | shutdown i c hd hc hp =>
    have hnf := not_failed_of_running hs (by simp [hd]) (by simp [hd])
    simp [hnf] at hf
  | down hd => exact Or.inr rfl
  | flushReply req e0 i c hd hc hp =>
    have hnf := not_failed_of_running hs (by simp [hd]) (by simp [hd])
    simp [hnf] at hf
  | alive i c hc hp => exact hs hf
  | tick hd =>
    have hnf := not_failed_of_running hs (by simp [hd]) (by simp [hd])
    simp [hnf] at hf
  | writeFail buf n err e0 hd hf0 => exact Or.inl rfl
  | writeOk buf n err hd hf0 =>
    have hnf := not_failed_of_running hs (by simp [hd]) (by simp [hd])
    simp [hasFailed_append, hnf, not_failed_of_ok hf0] at hf
  | tickFlush err hd =>
    have hnf := not_failed_of_running hs (by simp [hd]) (by simp [hd])
    simp [hasFailed_append, hnf, WriterCall.failedWrite] at hf
  | flush req err hd =>
    have hnf := not_failed_of_running hs (by simp [hd]) (by simp [hd])
    simp [hasFailed_append, hnf, WriterCall.failedWrite] at hf
  | closeData err hd =>
    have hnf := not_failed_of_running hs (by simp [hd]) (by simp [hd])
    simp [hnf] at hf
  | closeCaller i c err hc hp => exact hs hf

theorem failInv_reachable {dest : Destination} {k : Nat} {s : State} (h : Reachable dest k s) :
    FailInv s :=
  steps_induct (P := FailInv) (fun _ _ hs ht => failInv_step hs ht)
    (by intro hf; simp [init, hasFailed] at hf) h

theorem stuck_step (s0 : State) {s t : State} (hci : CloseInv s) (hs : Stuck s0 s)
    (h : Trans s t) : Stuck s0 t := by
  obtain ⟨hd0, h2, h3, h4, h5, h6⟩ := hs
  cases h with
  | call i c op hc hp => exact ⟨hd0, h2, h3, h4, h5, h6⟩
  | submit i c buf hd hc hp => rcases hd0 with h | h <;> simp [hd] at h
  | flushReq i c hd hc hp => rcases hd0 with h | h <;> simp [hd] at h
  | shutdown i c hd hc hp => rcases hd0 with h | h <;> simp [hd] at h
  | down hd => exact ⟨Or.inr rfl, h2, h3, h4, h5, h6⟩
  | flushReply req e0 i c hd hc hp => rcases hd0 with h | h <;> simp [hd] at h
  | alive i c hc hp => exact ⟨hd0, h2, h3, h4, h5, h6⟩
  | tick hd => rcases hd0 with h | h <;> simp [hd] at h
  | writeFail buf n err e0 hd hf0 => rcases hd0 with h | h <;> simp [hd] at h
  | writeOk buf n err hd hf0 => rcases hd0 with h | h <;> simp [hd] at h
  | tickFlush err hd => rcases hd0 with h | h <;> simp [hd] at h
  | flush req err hd => rcases hd0 with h | h <;> simp [hd] at h
  | closeData err hd => rcases hd0 with h | h <;> simp [hd] at h
  | closeCaller i c err hc hp =>
    have e := closers_leave { pc := CallerPc.idle, rets := c.rets ++ [Ret.closed err] } hc hp (by simp)
    have hz := (hci.running (by rcases hd0 with h | h <;> simp [h])).2
    omega

theorem up_step {s t : State} (hs : s.up = false) (h : Trans s t) : t.up = false := by
  cases h <;> simp_all [State.setCaller]

theorem gone_step (s0 : State) {s t : State} (hs : Gone s0 s) (h : Trans s t) : Gone s0 t := by
  obtain ⟨hd0, h2, h3, h4, h5⟩ := hs
  cases h <;> simp_all [State.setCaller, Gone]

theorem stuck_steps {dest : Destination} {k : Nat} {s t : State} (hr : Reachable dest k s)
    (hd : s.data = DataPc.updating ∨ s.data = DataPc.closeShutdown) (h : Steps s t) :
    Stuck s t := by
  have hP : CloseInv t ∧ Stuck s t :=
    steps_induct (P := fun u => CloseInv u ∧ Stuck s u)
      (fun _ _ hu ht => ⟨closeInv_step hu.1 ht, stuck_step s hu.1 hu.2 ht⟩)
      ⟨closeInv_reachable hr, hd, rfl, rfl, rfl, rfl, rfl⟩ h
  exact hP.2

theorem gone_steps {s t : State} (hd : s.data = DataPc.returned) (h : Steps s t) : Gone s t :=
  steps_induct (P := Gone s) (fun _ _ hu ht => gone_step s hu ht) ⟨hd, rfl, rfl, rfl, rfl⟩ h

theorem up_steps {s t : State} (hs : s.up = false) (h : Steps s t) : t.up = false :=
  steps_induct (P := fun u => u.up = false) (fun _ _ hu ht => up_step hu ht) hs h

theorem handle_under_contract (d : Destination) (buf : Bytes) (n : Int) (err : Option GoError)
    (h : (WriterCall.write buf n err).obeysWriter = true) :
    (handleWriteResult d buf n err).dest.numErrTruncated = d.numErrTruncated ∧
    (∀ b : Bytes, (handleWriteResult d buf n err).failure ≠ some (WriteFailure.truncated b)) ∧
    (handleWriteResult d buf n err).dest.numErrWrite =
      d.numErrWrite + (if (WriterCall.write buf n err).failedWrite then 1 else 0) := by
  simp [WriterCall.obeysWriter] at h
  obtain ⟨⟨_, hle⟩, hshort⟩ := h
  cases err with
  | some e => simp [handleWriteResult, WriterCall.failedWrite]
  | none =>
    have hn : (buf.length : Int) = n := by
      rcases hshort with h | h
      · omega
      · simp at h
    simp [handleWriteResult, WriterCall.failedWrite, hn]

theorem contractInv_step (d0 : Destination) {s t : State} (hs : ContractInv d0 s)
    (h : Trans s t) : ContractInv d0 t := by
  intro hall
  cases h with
  | call i c op hc hp => exact hs hall
  | submit i c buf hd hc hp => exact hs hall
  | flushReq i c hd hc hp => exact hs hall
  | shutdown i c hd hc hp => exact hs hall
  | down hd => exact hs hall
  | flushReply req e0 i c hd hc hp => exact hs hall
  | alive i c hc hp => exact hs hall
  | tick hd => exact hs hall
  | writeFail buf n err e0 hd hf0 =>
    simp [List.all_append] at hall
    obtain ⟨h1, h2, h3⟩ := hs (by simpa using hall.1)
    obtain ⟨g1, g2, g3⟩ := handle_under_contract s.dest buf n err hall.2
    refine ⟨by simp [g1, h1], ?_, ?_⟩
    · intro f hf b
      simp at hf
      rcases hf with hf | hf
      · exact h2 f hf b
      · subst hf
        intro hb
        exact g2 b (by rw [hf0, hb])
    · simp [g3, h3, List.countP_append, failed_of_failure hf0]
      omega
  | writeOk buf n err hd hf0 =>
    simp [List.all_append] at hall
    obtain ⟨h1, h2, h3⟩ := hs (by simpa using hall.1)
    obtain ⟨g1, g2, g3⟩ := handle_under_contract s.dest buf n err hall.2
    refine ⟨by simp [g1, h1], h2, ?_⟩
    simp [g3, h3, List.countP_append, not_failed_of_ok hf0]
  | tickFlush err hd =>
    simp [List.all_append] at hall
    obtain ⟨h1, h2, h3⟩ := hs (by simpa using hall.1)
    exact ⟨h1, h2, by simp [h3, List.countP_append, WriterCall.failedWrite]⟩
  | flush req err hd =>
    simp [List.all_append] at hall
    obtain ⟨h1, h2, h3⟩ := hs (by simpa using hall.1)
    exact ⟨h1, h2, by simp [h3, List.countP_append, WriterCall.failedWrite]⟩
  | closeData err hd => exact hs hall
  | closeCaller i c err hc hp => exact hs hall

theorem contractInv_reachable {dest : Destination} {k : Nat} {s : State}
    (h : Reachable dest k s) : ContractInv dest s :=
  steps_induct (P := ContractInv dest) (fun _ _ hs ht => contractInv_step dest hs ht)
    (by intro _; simp [init]) h

theorem handle_counters (d : Destination) (buf : Bytes) (n : Int) (err : Option GoError) :
    let r := handleWriteResult d buf n err
    (r.dest.numOut = d.numOut + 1 ∧ r.dest.numErrTruncated = d.numErrTruncated ∧
        r.dest.numErrWrite = d.numErrWrite ∧ err = none ∧ n = (buf.length : Int)) ∨
    (r.dest.numOut = d.numOut ∧ r.dest.numErrTruncated = d.numErrTruncated + 1 ∧
        r.dest.numErrWrite = d.numErrWrite ∧ err = none ∧ n ≠ (buf.length : Int)) ∨
    (r.dest.numOut = d.numOut ∧ r.dest.numErrTruncated = d.numErrTruncated ∧
        r.dest.numErrWrite = d.numErrWrite + 1 ∧ err ≠ none) := by
  cases err with
  | some e => simp [handleWriteResult]
  | none =>
    by_cases hn : (buf.length : Int) = n
    · simp [handleWriteResult, hn]
    · have hn1 : n ≠ (buf.length : Int) := fun e => hn e.symm
      simp [handleWriteResult, hn, hn1]

theorem writeRet_dest {s t : State} {n : Int} {err : Option GoError}
    (h : step s (Action.writeRet n err) = some t) :
    ∃ buf, s.data = DataPc.write buf ∧ t.dest = (handleWriteResult s.dest buf n err).dest ∧
      t.writer = s.writer ++ [WriterCall.write buf n err] := by
  cases hd : s.data <;> simp [step, writeRet, hd] at h
  rename_i buf
  cases hf : (handleWriteResult s.dest buf n err).failure with
  | none =>
    simp [hf] at h
    subst h
    exact ⟨buf, rfl, rfl, rfl⟩
  | some e =>
    simp [hf] at h
    subst h
    exact ⟨buf, rfl, rfl, rfl⟩

/-- C2: the write attempt of the data worker (conn.go:80-100) on the buffer `buf`
it passes to `Write` (the submitted buffer with the newline appended), with
result `(n, err)`, increments exactly one of `numOut`, `numErrTruncated`,
`numErrWrite`, by exactly 1, and leaves the other two as they were: `numOut`
when `err` is nil and `n = len(buf)`, `numErrTruncated` when `err` is nil and
`n != len(buf)`, `numErrWrite` when `err` is non-nil. -/
theorem C2_one_counter_per_write (s t : State) (n : Int) (err : Option GoError)
    (h : step s (Action.writeRet n err) = some t) :
    ∃ buf, s.data = DataPc.write buf ∧
      ((t.dest.numOut = s.dest.numOut + 1 ∧ t.dest.numErrTruncated = s.dest.numErrTruncated ∧
          t.dest.numErrWrite = s.dest.numErrWrite ∧ err = none ∧ n = (buf.length : Int)) ∨
       (t.dest.numOut = s.dest.numOut ∧ t.dest.numErrTruncated = s.dest.numErrTruncated + 1 ∧
          t.dest.numErrWrite = s.dest.numErrWrite ∧ err = none ∧ n ≠ (buf.length : Int)) ∨
       (t.dest.numOut = s.dest.numOut ∧ t.dest.numErrTruncated = s.dest.numErrTruncated ∧
          t.dest.numErrWrite = s.dest.numErrWrite + 1 ∧ err ≠ none)) := by
  obtain ⟨buf, hd, hdest, _⟩ := writeRet_dest h
  refine ⟨buf, hd, ?_⟩
  rw [hdest]
  exact handle_counters s.dest buf n err

theorem lookup_lt {l : List Caller} {i : Nat} {c : Caller} (h : l[i]? = some c) : i < l.length := by
  by_contra hn
  rw [List.getElem?_eq_none (by omega)] at h
  simp at h

theorem lookup_set_self {l : List Caller} {i : Nat} {c : Caller} (a : Caller)
    (h : l[i]? = some c) : (l.set i a)[i]? = some a := by
  have := lookup_lt h
  simp [List.getElem?_set, this]

theorem step_down {s0 s : State}
    (h : step s0 (Action.handoff Tid.data Tid.status Chan.updateUp) = some s) :
    s0.data = DataPc.updating ∧ s = { s0 with data := DataPc.closeShutdown, up := false } := by
  cases hd : s0.data <;> simp [step, handoff, offer, hd] at h
  simp [recv, recvStatus] at h
  subst h
  simp [sent, hd]

theorem step_alive {t u : State} {i : Nat}
    (h : step t (Action.handoff Tid.status (Tid.caller i) Chan.checkUp) = some u) :
    ∃ c0, t.callers[i]? = some c0 ∧ c0.pc = CallerPc.isAlive ∧
      u.callers[i]? = some { pc := CallerPc.idle, rets := c0.rets ++ [Ret.alive t.up] } := by
  simp [step, handoff, offer] at h
  cases hc : t.callers[i]? with
  | none => simp [recv, hc] at h
  | some c =>
    simp [recv, recvCaller, hc] at h
    cases hp : c.pc <;> simp [hp] at h
    subst h
    refine ⟨c, rfl, hp, ?_⟩
    simp [sent, State.setCaller]
    exact lookup_set_self _ hc

theorem step_submit {s : State} {i : Nat} {c : Caller} {buf : Bytes}
    (hd : s.data = DataPc.select) (hc : s.callers[i]? = some c) (hp : c.pc = CallerPc.submit buf) :
    step s (Action.handoff (Tid.caller i) Tid.data Chan.In) =
      some { s with
        data := DataPc.write (buf ++ [newline])
        received := s.received ++ [buf]
        callers := s.callers.set i { pc := CallerPc.idle, rets := c.rets ++ [Ret.submitted] } } := by
  simp [step, handoff, offer, hc, hp, recv, hd, recvData, sent, State.setCaller]

theorem step_shutdown {s : State} {i : Nat} {c : Caller}
    (hd : s.data = DataPc.select) (hc : s.callers[i]? = some c) (hp : c.pc = CallerPc.closeShutdown) :
    step s (Action.handoff (Tid.caller i) Tid.data Chan.shutdown) =
      some { s with
        data := DataPc.returned
        callers := s.callers.set i { c with pc := CallerPc.closeConn } } := by
  simp [step, handoff, offer, hc, hp, recv, hd, recvData, sent, State.setCaller]

theorem step_writeRet (s : State) (buf : Bytes) (n : Int) (err : Option GoError)
    (hd : s.data = DataPc.write buf) :
    ∃ t, step s (Action.writeRet n err) = some t ∧
      t.writer = s.writer ++ [WriterCall.write buf n err] ∧ t.received = s.received := by
  cases hf : (handleWriteResult s.dest buf n err).failure with
  | none =>
    exact ⟨{ s with
        data := DataPc.select
        dest := (handleWriteResult s.dest buf n err).dest
        writer := s.writer ++ [WriterCall.write buf n err] },
      by simp only [step, writeRet, hd, hf], rfl, rfl⟩
  | some e =>
    exact ⟨{ s with
        data := DataPc.updating
        dest := (handleWriteResult s.dest buf n err).dest
        writer := s.writer ++ [WriterCall.write buf n err]
        failures := s.failures ++ [e] },
      by simp only [step, writeRet, hd, hf], rfl, rfl⟩

theorem step_connClose {s : State} {i : Nat} {c : Caller} {e : Option GoError}
    (hc : s.callers[i]? = some c) (hp : c.pc = CallerPc.closeConn) :
    step s (Action.connClose (Tid.caller i) e) =
      some { s with
        callers := s.callers.set i { pc := CallerPc.idle, rets := c.rets ++ [Ret.closed e] }
        sockCloses := s.sockCloses ++ [(Tid.caller i, e)] } := by
  simp [step, connClose, hc, hp]

theorem step_flushReply {s t : State} {i : Nat}
    (h : step s (Action.handoff Tid.data (Tid.caller i) Chan.flushErr) = some t) :
    ∃ req e c0, s.data = DataPc.flushReply req e ∧ s.callers[i]? = some c0 ∧
      c0.pc = CallerPc.flushRecv ∧ t.writer = s.writer ∧
      t.callers[i]? = some { pc := CallerPc.idle, rets := c0.rets ++ [Ret.flushed e] } := by
  cases hd : s.data <;> simp [step, handoff, offer, hd] at h
  rename_i req e
  cases hc : s.callers[i]? with
  | none => simp [recv, hc] at h
  | some c =>
    simp [recv, recvCaller, hc] at h
    cases hp : c.pc <;> simp [hp] at h
    subst h
    refine ⟨req, e, c, rfl, rfl, hp, ?_, ?_⟩
    · simp [sent, State.setCaller, hd]
    · simp [sent, State.setCaller, hd]
      exact lookup_set_self _ hc

theorem step_flushReq {s : State} {i : Nat} {c : Caller}
    (hd : s.data = DataPc.select) (hc : s.callers[i]? = some c) (hp : c.pc = CallerPc.flushSend) :
    step s (Action.handoff (Tid.caller i) Tid.data Chan.flush) =
      some { s with
        data := DataPc.flush (Tid.caller i)
        callers := s.callers.set i { c with pc := CallerPc.flushRecv } } := by
  simp [step, handoff, offer, hc, hp, recv, hd, recvData, sent, State.setCaller]

theorem step_flushRet_serving (s : State) (req : Tid) (err : Option GoError)
    (hd : s.data = DataPc.flush req) :
    step s (Action.flushRet err) =
      some { s with
        data := DataPc.flushReply req err
        writer := s.writer ++ [WriterCall.flush (some req) err] } := by
  simp [step, flushRet, hd]

theorem step_reply (s : State) (req : Tid) (e : Option GoError) {i : Nat} {c : Caller}
    (hd : s.data = DataPc.flushReply req e) (hc : s.callers[i]? = some c)
    (hp : c.pc = CallerPc.flushRecv) :
    step s (Action.handoff Tid.data (Tid.caller i) Chan.flushErr) =
      some { s with
        data := DataPc.select
        callers := s.callers.set i { pc := CallerPc.idle, rets := c.rets ++ [Ret.flushed e] } } := by
  simp [step, handoff, offer, hc, hp, recv, hd, recvCaller, sent, State.setCaller]

theorem no_reply_before_flush {s : State} {req : Tid} (j : Nat)
    (hd : s.data = DataPc.flush req) :
    step s (Action.handoff Tid.data (Tid.caller j) Chan.flushErr) = none := by
  simp [step, handoff, offer, hd]

theorem no_reply_to_other {s : State} {j : Nat}
    (hj : ∀ cj, s.callers[j]? = some cj → cj.pc ≠ CallerPc.flushRecv) :
    step s (Action.handoff Tid.data (Tid.caller j) Chan.flushErr) = none := by
  cases hstep : step s (Action.handoff Tid.data (Tid.caller j) Chan.flushErr) with
  | none => rfl
  | some t =>
    obtain ⟨_, _, c0, _, hc0, hp0, _, _⟩ := step_flushReply hstep
    exact absurd hp0 (hj c0 hc0)

theorem steps_of_step {s t : State} {a : Action} (h : step s a = some t) : Steps s t :=
  ⟨[a], by simp [run, h]⟩

theorem blockedInv_step {s t : State} (hs : BlockedInv s) (h : Trans s t) : BlockedInv t := by
  intro hb
  cases h with
  | call i c op hc hp => exact hs hb
  | submit i c buf hd hc hp => rcases hb with h | h <;> simp at h
  | flushReq i c hd hc hp => rcases hb with h | h <;> simp at h
  | shutdown i c hd hc hp => rcases hb with h | h <;> simp at h
  | down hd => exact hs (Or.inl hd)
  | flushReply req e0 i c hd hc hp => rcases hb with h | h <;> simp at h
  | alive i c hc hp => exact hs hb
  | tick hd => rcases hb with h | h <;> simp at h
  | writeFail buf n err e0 hd hf0 => simp [hasFailed_append, failed_of_failure hf0]
  | writeOk buf n err hd hf0 => rcases hb with h | h <;> simp at h
  | tickFlush err hd => rcases hb with h | h <;> simp at h
  | flush req err hd => rcases hb with h | h <;> simp at h
  | closeData err hd => rcases hb with h | h <;> simp at h
  | closeCaller i c err hc hp => exact hs hb

theorem blockedInv_reachable {dest : Destination} {k : Nat} {s : State}
    (h : Reachable dest k s) : BlockedInv s :=
  steps_induct (P := BlockedInv) (fun _ _ hs ht => blockedInv_step hs ht)
    (by intro hb; rcases hb with h | h <;> simp [init] at h) h

theorem full_not_failed (c : WriterCall) (h : c.fullWrite = true) : c.failedWrite = false := by
  cases c with
  | write buf n err =>
    cases err with
    | none => simpa [WriterCall.fullWrite, WriterCall.failedWrite] using h
    | some e => simp [WriterCall.fullWrite] at h
  | flush req err => rfl

/-- C1: in every reachable state in which every write so far returned the full
length and no error, the buffers passed to `c.Write`, in order of the calls
(followed by the buffer the data worker has received and is about to pass to
`Write`, when it stands between the two), are exactly the buffers received
from `In`, in order, each once and each followed by one newline byte; so the
bytes passed to the writer are `b1 ++ "\n" ++ ... ++ bk ++ "\n"`.  In such a
state the data worker is not in the failure path, so it goes on receiving. -/
theorem C1_writes_in_submission_order (dest : Destination) (k : Nat) (s : State)
    (hr : Reachable dest k s) (hfull : ∀ c ∈ s.writer, c.fullWrite = true) :
    writtenBufs s.writer ++ pendingWrite s.data = s.received.map (fun b => b ++ [newline]) ∧
    bytesWritten s.writer ++ (pendingWrite s.data).flatten =
      (s.received.map (fun b => b ++ [newline])).flatten ∧
    s.data ≠ DataPc.updating ∧ s.data ≠ DataPc.closeShutdown := by
  have h := written_reachable hr
  have hnf : hasFailed s.writer = false := by
    simp only [hasFailed, List.any_eq_false]
    intro c hc
    simp [full_not_failed c (hfull c hc)]
  have hb := blockedInv_reachable hr
  refine ⟨h, ?_, ?_, ?_⟩
  · rw [← h]
    simp [bytesWritten]
  · intro hd
    have := hb (Or.inl hd)
    simp [hnf] at this
  · intro hd
    have := hb (Or.inr hd)
    simp [hnf] at this

/-- C1 at `okState`: one caller has submitted `fooLine` and the write succeeded. -/
theorem C1_witness :
    Reachable dest0 1 okState ∧ (∀ c ∈ okState.writer, c.fullWrite = true) ∧
    writtenBufs okState.writer ++ pendingWrite okState.data =
      okState.received.map (fun b => b ++ [newline]) ∧
    bytesWritten okState.writer ++ (pendingWrite okState.data).flatten =
      (okState.received.map (fun b => b ++ [newline])).flatten ∧
    okState.data ≠ DataPc.updating ∧ okState.data ≠ DataPc.closeShutdown :=
  ⟨⟨okRun, rfl⟩, by decide, C1_writes_in_submission_order dest0 1 okState ⟨okRun, rfl⟩ (by decide)⟩

/-- C2 at the write of `heldState` that returns the full length and no error. -/
theorem C2_witness :
    step heldState (Action.writeRet 22 none) = some okState ∧
    ∃ buf, heldState.data = DataPc.write buf ∧
      ((okState.dest.numOut = heldState.dest.numOut + 1 ∧
          okState.dest.numErrTruncated = heldState.dest.numErrTruncated ∧
          okState.dest.numErrWrite = heldState.dest.numErrWrite ∧
          (none : Option GoError) = none ∧ (22 : Int) = (buf.length : Int)) ∨
       (okState.dest.numOut = heldState.dest.numOut ∧
          okState.dest.numErrTruncated = heldState.dest.numErrTruncated + 1 ∧
          okState.dest.numErrWrite = heldState.dest.numErrWrite ∧
          (none : Option GoError) = none ∧ (22 : Int) ≠ (buf.length : Int)) ∨
       (okState.dest.numOut = heldState.dest.numOut ∧
          okState.dest.numErrTruncated = heldState.dest.numErrTruncated ∧
          okState.dest.numErrWrite = heldState.dest.numErrWrite + 1 ∧
          (none : Option GoError) ≠ none)) :=
  ⟨rfl, C2_one_counter_per_write heldState okState 22 none rfl⟩

/-- C3: evaluated at a failed write.  After caller 0 submits `x` and `c.Write`
returns an error, the status worker accepts the down update and the data worker
enters its own `c.Close()`, where it blocks in `c.shutdown <- true`: the only
receive on `shutdown` is in the `select` of the data worker itself, so the
hand-off is not enabled, and in every state reachable from there the data
worker is still before its `return` and `c.conn.Close()` has not been called.
The same holds after any failed write in any reachable state. -/
theorem C3_failed_write_blocks_in_close :
    run (init dest0 1) failingRun = some downState ∧
    downState.data = DataPc.closeShutdown ∧ downState.up = false ∧
    step downState (Action.handoff Tid.data Tid.data Chan.shutdown) = none ∧
    (∀ t, Steps downState t →
      (t.data = DataPc.updating ∨ t.data = DataPc.closeShutdown) ∧ t.sockCloses = []) ∧
    (∀ (dest : Destination) (k : Nat) (s t : State), Reachable dest k s →
      (∃ c ∈ s.writer, c.failedWrite = true) → Steps s t →
      (t.data = DataPc.updating ∨ t.data = DataPc.closeShutdown) ∧ t.sockCloses = []) := by
  have hgen : ∀ (dest : Destination) (k : Nat) (s t : State), Reachable dest k s →
      (∃ c ∈ s.writer, c.failedWrite = true) → Steps s t →
      (t.data = DataPc.updating ∨ t.data = DataPc.closeShutdown) ∧ t.sockCloses = [] := by
    intro dest k s t hr hf ht
    have hfail : hasFailed s.writer = true := by
      simpa [hasFailed] using hf
    have hd := failInv_reachable hr hfail
    have h := stuck_steps hr hd ht
    have hsock := ((closeInv_reachable hr).running (by rcases hd with h | h <;> simp [h])).1
    exact ⟨h.1, by rw [h.2.2.2.1, hsock]⟩
  refine ⟨rfl, rfl, rfl, rfl, ?_, hgen⟩
  intro t ht
  exact hgen dest0 1 downState t ⟨failingRun, rfl⟩ (by decide) ht

/-- C4: the liveness flag starts true; when the status worker accepts the
down update of the data worker (state `s0` to `s`) the flag is false; in every
state `t` reached afterwards it is still false and an `isAlive` answered there
returns false; and no step of the system turns a false flag back to true. -/
theorem C4_liveness_only_goes_down (dest : Destination) (k : Nat) (s0 s t u : State) (i : Nat)
    (hacc : step s0 (Action.handoff Tid.data Tid.status Chan.updateUp) = some s)
    (ht : Steps s t)
    (hq : step t (Action.handoff Tid.status (Tid.caller i) Chan.checkUp) = some u) :
    (init dest k).up = true ∧ s.up = false ∧ t.up = false ∧ u.up = false ∧
    (∃ c, u.callers[i]? = some c ∧ c.rets.getLast? = some (Ret.alive false)) ∧
    (∀ a b : State, a.up = false → Steps a b → b.up = false) := by
  have hs : s.up = false := by
    rw [(step_down hacc).2]
  have htup := up_steps hs ht
  obtain ⟨c0, _, _, hu⟩ := step_alive hq
  refine ⟨rfl, hs, htup, up_steps htup (steps_of_step hq), ⟨_, hu, ?_⟩, fun a b ha hab => up_steps ha hab⟩
  simp [htup]

/-- C4 at `failingRun` followed by an `isAlive` of the caller. -/
theorem C4_witness :
    step failedState (Action.handoff Tid.data Tid.status Chan.updateUp) = some downState ∧
    Steps downState queryState ∧
    step queryState (Action.handoff Tid.status (Tid.caller 0) Chan.checkUp) = some answeredState ∧
    ((init dest0 1).up = true ∧ downState.up = false ∧ queryState.up = false ∧
      answeredState.up = false ∧
      (∃ c, answeredState.callers[0]? = some c ∧ c.rets.getLast? = some (Ret.alive false)) ∧
      (∀ a b : State, a.up = false → Steps a b → b.up = false)) :=
  ⟨rfl, ⟨[Action.call 0 Op.isAlive], rfl⟩, rfl,
    C4_liveness_only_goes_down dest0 1 failedState downState queryState answeredState 0 rfl
      ⟨[Action.call 0 Op.isAlive], rfl⟩ rfl⟩

/-- C5, as the code has it: whatever the submitted buffer ends in, the data
worker that receives it from `In` passes the buffer followed by one more
newline byte to `c.Write` (conn.go:79 appends unconditionally), so that a
buffer that already ends in a newline is written with two. -/
theorem C5_newline_always_appended (s : State) (i : Nat) (c : Caller) (buf : Bytes) (n : Int)
    (err : Option GoError) (hd : s.data = DataPc.select) (hc : s.callers[i]? = some c)
    (hp : c.pc = CallerPc.submit buf) :
    ∃ s1 s2, step s (Action.handoff (Tid.caller i) Tid.data Chan.In) = some s1 ∧
      step s1 (Action.writeRet n err) = some s2 ∧
      s2.received = s.received ++ [buf] ∧
      s2.writer = s.writer ++ [WriterCall.write (buf ++ [newline]) n err] := by
  obtain ⟨s2, h2, hw, hrec⟩ := step_writeRet
    { s with
      data := DataPc.write (buf ++ [newline])
      received := s.received ++ [buf]
      callers := s.callers.set i { pc := CallerPc.idle, rets := c.rets ++ [Ret.submitted] } }
    (buf ++ [newline]) n err rfl
  exact ⟨_, s2, step_submit hd hc hp, h2, hrec, hw⟩

/-- C5 as amended, at the submission of `fooLine`. -/
theorem C5_witness :
    submittingState.data = DataPc.select ∧
    submittingState.callers[0]? = some { pc := CallerPc.submit fooLine, rets := [] } ∧
    ∃ s1 s2, step submittingState (Action.handoff (Tid.caller 0) Tid.data Chan.In) = some s1 ∧
      step s1 (Action.writeRet 22 none) = some s2 ∧
      s2.received = submittingState.received ++ [fooLine] ∧
      s2.writer = submittingState.writer ++ [WriterCall.write (fooLine ++ [newline]) 22 none] :=
  ⟨rfl, rfl, C5_newline_always_appended submittingState 0 _ fooLine 22 none rfl rfl rfl⟩

/-- C5 fails as stated: `"foo.bar 1 1000000000\n"` ends in a newline, and the
bytes the data worker passes to `c.Write` for it are that line followed by a
second newline, not the line itself. -/
theorem C5_counterexample :
    fooLine.getLast? = some newline ∧
    run (init dest0 1) okRun = some okState ∧
    writtenBufs okState.writer = [fooLine ++ [newline]] ∧
    writtenBufs okState.writer ≠ [fooLine] := by
  refine ⟨by decide, rfl, rfl, by decide⟩

/-- C6: in every reachable state and for every caller `i`, with any number of
callers in `Flush` at the same time:
* the values `Flush` has returned to `i`, in order, followed by the result the
  data worker holds for `i` and has not yet handed over, are exactly the results
  of the writer flushes the data worker performed for the requests of `i`;
* `i` waits on `flushErr` exactly when the data worker is serving a request of `i`;
* if a hand-off on `flushErr` to `i` takes place, the value `Flush` returns is the
  result of the last writer flush performed for `i`;
* when `i` is blocked in `c.flush <- true` and the data worker is at its `select`,
  the request can be served: the data worker receives it, `Flush` cannot return
  before `c.buffered.Flush()` has been called, whatever `err` that call returns
  is logged and is the value the data worker offers on `flushErr`, the hand-off
  to `i` is enabled, and `Flush` returns exactly `err` to `i`;
* while the data worker is about to call `c.buffered.Flush()` for `i`, no
  hand-off on `flushErr` is enabled, and the call returning `err` leaves the
  data worker offering `err`;
* while the data worker offers `e` for `i`, the hand-off to `i` is enabled and
  makes `Flush` return `e`, and no other caller can receive it. -/
theorem C6_flush_returns_writer_result (dest : Destination) (k : Nat) (s : State) (i : Nat)
    (c : Caller) (hr : Reachable dest k s) (hc : s.callers[i]? = some c) :
    flushesFor (Tid.caller i) s.writer = flushRets c.rets ++ inFlight (Tid.caller i) s.data ∧
    (c.pc = CallerPc.flushRecv ↔ requester s.data = some (Tid.caller i)) ∧
    (∀ t, step s (Action.handoff Tid.data (Tid.caller i) Chan.flushErr) = some t →
      ∃ e, t.callers[i]? = some { pc := CallerPc.idle, rets := c.rets ++ [Ret.flushed e] } ∧
        (flushesFor (Tid.caller i) s.writer).getLast? = some e ∧
        flushesFor (Tid.caller i) t.writer = flushRets (c.rets ++ [Ret.flushed e])) ∧
    (s.data = DataPc.select → c.pc = CallerPc.flushSend → ∀ err : Option GoError,
      ∃ s1 s2 s3,
        step s (Action.handoff (Tid.caller i) Tid.data Chan.flush) = some s1 ∧
        s1.data = DataPc.flush (Tid.caller i) ∧ s1.writer = s.writer ∧
        step s1 (Action.handoff Tid.data (Tid.caller i) Chan.flushErr) = none ∧
        step s1 (Action.flushRet err) = some s2 ∧
        s2.data = DataPc.flushReply (Tid.caller i) err ∧
        s2.writer = s.writer ++ [WriterCall.flush (some (Tid.caller i)) err] ∧
        step s2 (Action.handoff Tid.data (Tid.caller i) Chan.flushErr) = some s3 ∧
        s3.data = DataPc.select ∧ s3.writer = s2.writer ∧
        s3.callers[i]? = some { pc := CallerPc.idle, rets := c.rets ++ [Ret.flushed err] }) ∧
    (s.data = DataPc.flush (Tid.caller i) →
      (∀ j, step s (Action.handoff Tid.data (Tid.caller j) Chan.flushErr) = none) ∧
      ∀ err : Option GoError, ∃ s2, step s (Action.flushRet err) = some s2 ∧
        s2.data = DataPc.flushReply (Tid.caller i) err ∧
        s2.writer = s.writer ++ [WriterCall.flush (some (Tid.caller i)) err] ∧
        s2.callers = s.callers) ∧
    (∀ e : Option GoError, s.data = DataPc.flushReply (Tid.caller i) e →
      (∃ t, step s (Action.handoff Tid.data (Tid.caller i) Chan.flushErr) = some t ∧
        t.data = DataPc.select ∧ t.writer = s.writer ∧
        t.callers[i]? = some { pc := CallerPc.idle, rets := c.rets ++ [Ret.flushed e] }) ∧
      ∀ j, j ≠ i → step s (Action.handoff Tid.data (Tid.caller j) Chan.flushErr) = none) := by
  have hinv := flushInv_reachable hr
  have h := hinv i c hc
  refine ⟨h.2, h.1, ?_, ?_, ?_, ?_⟩
  · intro t ht
    obtain ⟨req, e, c0, hd, hc0, hp0, hwr, htc⟩ := step_flushReply ht
    have hcc : c0 = c := by
      rw [hc] at hc0
      exact (Option.some.inj hc0).symm
    subst hcc
    have hreq : req = Tid.caller i := by
      have := h.1.mp hp0
      simpa [hd, requester] using this
    subst hreq
    have hlog : flushesFor (Tid.caller i) s.writer = flushRets c0.rets ++ [e] := by
      simpa [hd, inFlight] using h.2
    refine ⟨e, htc, by simp [hlog], ?_⟩
    rw [hwr, hlog, flushRets_append]
    simp [flushRets]
  · intro hd hp err
    have hc1 := lookup_set_self { c with pc := CallerPc.flushRecv } hc
    have hrep := step_reply
      { s with
        data := DataPc.flushReply (Tid.caller i) err
        callers := s.callers.set i { c with pc := CallerPc.flushRecv }
        writer := s.writer ++ [WriterCall.flush (some (Tid.caller i)) err] }
      (Tid.caller i) err rfl hc1 rfl
    refine ⟨_, _, _, step_flushReq hd hc hp, rfl, rfl, no_reply_before_flush i rfl,
      step_flushRet_serving _ (Tid.caller i) err rfl, rfl, rfl, hrep, rfl, rfl, ?_⟩
    exact lookup_set_self _ hc1
  · intro hd
    refine ⟨fun j => no_reply_before_flush j hd, ?_⟩
    intro err
    exact ⟨_, step_flushRet_serving s (Tid.caller i) err hd, rfl, rfl, rfl⟩
  · intro e hd
    have hp : c.pc = CallerPc.flushRecv := h.1.mpr (by simp [hd, requester])
    refine ⟨⟨_, step_reply s (Tid.caller i) e hd hc hp, rfl, rfl, lookup_set_self _ hc⟩, ?_⟩
    intro j hj
    apply no_reply_to_other
    intro cj hcj hpj
    have := (hinv j cj hcj).1.mp hpj
    simp [hd, requester] at this
    exact hj this.symm

/-- C6 at `racingState`, where two callers are in `Flush` at the same time and
the writer flush performed for caller 1 returns a non-nil error: `Flush` returns
that error to caller 1; in `raceRun` caller 0 is served next and gets `nil`. -/
theorem C6_witness :
    Reachable dest0 2 racingState ∧
    racingState.callers[1]? = some { pc := CallerPc.flushSend, rets := [] } ∧
    racingState.data = DataPc.select ∧
    run (init dest0 2) raceRun = some racedState ∧
    flushesFor (Tid.caller 1) racingState.writer =
      flushRets [] ++ inFlight (Tid.caller 1) racingState.data ∧
    (∃ s1 s2 s3,
      step racingState (Action.handoff (Tid.caller 1) Tid.data Chan.flush) = some s1 ∧
      s1.data = DataPc.flush (Tid.caller 1) ∧ s1.writer = racingState.writer ∧
      step s1 (Action.handoff Tid.data (Tid.caller 1) Chan.flushErr) = none ∧
      step s1 (Action.flushRet (some errPipe)) = some s2 ∧
      s2.data = DataPc.flushReply (Tid.caller 1) (some errPipe) ∧
      s2.writer = racingState.writer ++ [WriterCall.flush (some (Tid.caller 1)) (some errPipe)] ∧
      step s2 (Action.handoff Tid.data (Tid.caller 1) Chan.flushErr) = some s3 ∧
      s3.data = DataPc.select ∧ s3.writer = s2.writer ∧
      s3.callers[1]? = some { pc := CallerPc.idle, rets := [] ++ [Ret.flushed (some errPipe)] }) :=
  ⟨⟨raceRun.take 2, rfl⟩, rfl, rfl, rfl,
    (C6_flush_returns_writer_result dest0 2 racingState 1 _ ⟨raceRun.take 2, rfl⟩ rfl).1,
    (C6_flush_returns_writer_result dest0 2 racingState 1 _ ⟨raceRun.take 2, rfl⟩ rfl).2.2.2.1
      rfl rfl (some errPipe)⟩

/-- C7: when a caller is in `Close`, blocked in `c.shutdown <- true`, and the data
worker is at its `select`, the hand-off on `shutdown` can take place; it takes
the data worker to its `return` with no call on the buffered writer; in every
state reached afterwards the data worker is still returned, the calls made on
the writer are the same and no further buffer has been received; and the
caller then calls `c.conn.Close()`, the first call on the socket, and `Close`
returns what that call returned. -/
theorem C7_shutdown_stops_worker (dest : Destination) (k : Nat) (s : State) (i : Nat) (c : Caller)
    (hr : Reachable dest k s) (hd : s.data = DataPc.select) (hc : s.callers[i]? = some c)
    (hp : c.pc = CallerPc.closeShutdown) :
    ∃ s1, step s (Action.handoff (Tid.caller i) Tid.data Chan.shutdown) = some s1 ∧
      s1.data = DataPc.returned ∧ s1.writer = s.writer ∧ s1.received = s.received ∧
      (∀ t, Steps s1 t →
        t.data = DataPc.returned ∧ t.writer = s.writer ∧ t.received = s.received) ∧
      (∀ e, ∃ s2, step s1 (Action.connClose (Tid.caller i) e) = some s2 ∧
        s2.sockCloses = [(Tid.caller i, e)] ∧
        s2.callers[i]? = some { pc := CallerPc.idle, rets := c.rets ++ [Ret.closed e] }) := by
  have hsock : s.sockCloses = [] := ((closeInv_reachable hr).running (by simp [hd])).1
  refine ⟨_, step_shutdown hd hc hp, rfl, rfl, rfl, ?_, ?_⟩
  · intro t ht
    have h := gone_steps rfl ht
    exact ⟨h.1, h.2.1, h.2.2.1⟩
  · intro e
    have h1 := lookup_set_self { c with pc := CallerPc.closeConn } hc
    refine ⟨_, step_connClose h1 rfl, by simp [hsock], ?_⟩
    exact lookup_set_self _ h1

/-- C7 at `closingState`: the only caller is in `Close` and the data worker at its `select`. -/
theorem C7_witness :
    Reachable dest0 1 closingState ∧ closingState.data = DataPc.select ∧
    closingState.callers[0]? = some { pc := CallerPc.closeShutdown, rets := [] } ∧
    ∃ s1, step closingState (Action.handoff (Tid.caller 0) Tid.data Chan.shutdown) = some s1 ∧
      s1.data = DataPc.returned ∧ s1.writer = closingState.writer ∧
      s1.received = closingState.received ∧
      (∀ t, Steps s1 t →
        t.data = DataPc.returned ∧ t.writer = closingState.writer ∧
        t.received = closingState.received) ∧
      (∀ e, ∃ s2, step s1 (Action.connClose (Tid.caller 0) e) = some s2 ∧
        s2.sockCloses = [(Tid.caller 0, e)] ∧
        s2.callers[0]? = some { pc := CallerPc.idle, rets := [] ++ [Ret.closed e] }) :=
  ⟨⟨[Action.call 0 Op.close], rfl⟩, rfl, rfl,
    C7_shutdown_stops_worker dest0 1 closingState 0 _ ⟨[Action.call 0 Op.close], rfl⟩ rfl rfl rfl⟩

/-- C8: once a write of the data worker has failed (a non-nil error, or a count
other than the length), in every state reached later the buffers received from
`In` and the calls made on the writer are the same as at that state: no further
buffer is received and the number of `Write` calls does not change. -/
theorem C8_no_write_after_failure (dest : Destination) (k : Nat) (s t : State)
    (hr : Reachable dest k s) (hf : ∃ c ∈ s.writer, c.failedWrite = true) (ht : Steps s t) :
    t.received = s.received ∧ t.writer = s.writer ∧
    (writtenBufs t.writer).length = (writtenBufs s.writer).length := by
  have hfail : hasFailed s.writer = true := by
    simpa [hasFailed] using hf
  have h := stuck_steps hr (failInv_reachable hr hfail) ht
  exact ⟨h.2.2.1, h.2.1, by rw [h.2.1]⟩

/-- C8 at `downState` and the later state `queryState`. -/
theorem C8_witness :
    Reachable dest0 1 downState ∧ (∃ c ∈ downState.writer, c.failedWrite = true) ∧
    Steps downState queryState ∧
    queryState.received = downState.received ∧ queryState.writer = downState.writer ∧
    (writtenBufs queryState.writer).length = (writtenBufs downState.writer).length :=
  ⟨⟨failingRun, rfl⟩, by decide, ⟨[Action.call 0 Op.isAlive], rfl⟩,
    C8_no_write_after_failure dest0 1 downState queryState ⟨failingRun, rfl⟩ (by decide)
      ⟨[Action.call 0 Op.isAlive], rfl⟩⟩

/-- C9: in every reachable state `c.conn.Close()` has been called at most once.
The data worker never gets to the socket close of its own `Close` call; a
socket close has happened only if the data worker has returned, which it does
on a `shutdown` receive; and the calls made plus the callers that are past
their `shutdown` send and about to close are together at most one. -/
theorem C9_socket_closed_at_most_once (dest : Destination) (k : Nat) (s : State)
    (hr : Reachable dest k s) :
    s.sockCloses.length ≤ 1 ∧ s.data ≠ DataPc.closeConn ∧
    (s.sockCloses ≠ [] → s.data = DataPc.returned) ∧
    s.sockCloses.length + closers s.callers ≤ 1 := by
  have h := closeInv_reachable hr
  refine ⟨by have := h.atMostOnce; omega, h.dataNotClosing, ?_, h.atMostOnce⟩
  intro hne
  by_contra hd
  exact hne (h.running hd).1

/-- C9 at `downState`. -/
theorem C9_witness :
    Reachable dest0 1 downState ∧
    downState.sockCloses.length ≤ 1 ∧ downState.data ≠ DataPc.closeConn ∧
    (downState.sockCloses ≠ [] → downState.data = DataPc.returned) ∧
    downState.sockCloses.length + closers downState.callers ≤ 1 :=
  ⟨⟨failingRun, rfl⟩, C9_socket_closed_at_most_once dest0 1 downState ⟨failingRun, rfl⟩⟩

/-- C10: in every reachable state in which every `Write` call so far obeyed the
`io.Writer` contract (a count `0 <= n <= len(p)`, and a non-nil error with
every count short of `len(p)`), `numErrTruncated` has never been incremented,
no "truncated write" error has been synthesized, and the failed writes are all
counted in `numErrWrite`. -/
theorem C10_truncated_branch_unreachable (dest : Destination) (k : Nat) (s : State)
    (hr : Reachable dest k s) (hw : ∀ c ∈ s.writer, c.obeysWriter = true) :
    s.dest.numErrTruncated = dest.numErrTruncated ∧
    (∀ f ∈ s.failures, ∀ b : Bytes, f ≠ WriteFailure.truncated b) ∧
    s.dest.numErrWrite = dest.numErrWrite + s.writer.countP WriterCall.failedWrite :=
  contractInv_reachable hr (by simpa using hw)

/-- C10 at `downState`, whose only write returned `(0, err)` with `err` non-nil. -/
theorem C10_witness :
    Reachable dest0 1 downState ∧ (∀ c ∈ downState.writer, c.obeysWriter = true) ∧
    downState.dest.numErrTruncated = dest0.numErrTruncated ∧
    (∀ f ∈ downState.failures, ∀ b : Bytes, f ≠ WriteFailure.truncated b) ∧
    downState.dest.numErrWrite = dest0.numErrWrite + downState.writer.countP WriterCall.failedWrite :=
  ⟨⟨failingRun, rfl⟩, by decide,
    C10_truncated_branch_unreachable dest0 1 downState ⟨failingRun, rfl⟩ (by decide)⟩

end Relay
